import Mathlib

/-!
Verification of the sampling profiler (`src/profiler.py`).

The development shallowly embeds the program in Lean 4:

* Machine data: the HTTP/JSON boundary is modelled by an inductive `Json`
  mirroring a parsed JSON document (numbers as `Int`: no claim touches
  fractional JSON numbers).  Python `float` results (average depths,
  estimated durations) are modelled as `ℚ`.
* Fallible Python code is modelled in the `Except PyErr` monad: an
  uncaught Python exception is `Except.error`.
* The two data-plane functions `filter_stack_trace` and
  `extract_methods_with_depth` are embedded twice, once over the typed
  thread-dump shape documented for the endpoint (`StackFrame`, `Thread`,
  `ThreadDump`) and once over raw `Json` values (`..._json`), because the
  error-handling behaviour of the sampling loop on malformed bodies is
  only visible at the raw level.  Both are direct translations of the
  same source lines.
* The sampler `sample_thread_dumps` is embedded over the per-iteration
  outcomes of `get_thread_dump` (`List (Option Json)`, `none` = the
  fetch helper caught a transport/JSON-decode error and returned `None`),
  since the HTTP transport, the RNG-driven sleep and the logging calls
  are external collaborators that do not influence the returned data.
-/

namespace Profiler

/-- Python exception kinds that the embedded code can raise. -/
inductive PyErr where
  | keyError
  | typeError
  | valueError
  | attributeError
  | zeroDivisionError
deriving DecidableEq

/-- A parsed JSON document, as returned by `response.json()`.
JSON numbers are modelled as integers (no claim involves fractional
JSON numbers).  Objects keep key order; parsed JSON objects have
distinct keys. -/
inductive Json where
  | null
  | bool (b : Bool)
  | num (n : Int)
  | str (s : String)
  | arr (elems : List Json)
  | obj (entries : List (String × Json))

/-- Python truthiness (`if thread_dump:`) of a parsed JSON value:
`None`, `False`, `0`, `""`, `[]` and `{}` are falsy. -/
def truthy : Json → Bool
  | .null => false
  | .bool b => b
  | .num n => n != 0
  | .str s => s != ""
  | .arr xs => !xs.isEmpty
  | .obj kvs => !kvs.isEmpty

/-- Python subscript `j[k]` with a string key: association-list lookup on a
dict (`KeyError` when the key is missing), `TypeError` on any non-dict. -/
def jsonSubscript : Json → String → Except PyErr Json
  | .obj kvs, k =>
    match kvs.lookup k with
    | some v => .ok v
    | none => .error .keyError
  | _, _ => .error .typeError

/-- Python `list(reversed(x))`: lists reverse their elements, strings give
their characters (as 1-character strings) in reverse, dicts (Python ≥ 3.8)
give their keys in reverse; other values raise `TypeError`. -/
def pyReversedList : Json → Except PyErr (List Json)
  | .arr xs => .ok xs.reverse
  | .str s => .ok ((s.toList.map (fun c => Json.str (String.mk [c]))).reverse)
  | .obj kvs => .ok ((kvs.map (fun kv => Json.str kv.1)).reverse)
  | _ => .error .typeError

/-- Python iteration `for x in j`: lists yield elements, dicts yield keys,
strings yield 1-character strings; other values raise `TypeError`. -/
def pyIter : Json → Except PyErr (List Json)
  | .arr xs => .ok xs
  | .obj kvs => .ok (kvs.map (fun kv => Json.str kv.1))
  | .str s => .ok (s.toList.map (fun c => Json.str (String.mk [c])))
  | _ => .error .typeError

/-- Python `==` between a JSON value and a `str` literal: true exactly when
the value is that string (comparisons across types are `False`, not errors). -/
def pyEqStr (j : Json) (s : String) : Bool :=
  match j with
  | .str t => t == s
  | _ => false

/-- The single-quote character, used by `pyRepr`. -/
def singleQuote : String := String.singleton (Char.ofNat 39)

/-- Python `repr` of a parsed JSON value, used by `str()`/f-strings on
containers.  String escaping and `repr`'s quote-selection rule are not
modelled (no theorem depends on this rendering; it is only reachable for
a non-string `methodName` value). -/
def pyRepr : Json → String
  | .null => "None"
  | .bool true => "True"
  | .bool false => "False"
  | .num n => toString n
  | .str s => singleQuote ++ s ++ singleQuote
  | .arr xs => "[" ++ String.intercalate ", " (xs.attach.map (fun x => pyRepr x.1)) ++ "]"
  | .obj kvs =>
      "\x7b" ++
        String.intercalate ", "
          (kvs.attach.map (fun kv => singleQuote ++ kv.1.1 ++ singleQuote ++ ": " ++ pyRepr kv.1.2)) ++
      "\x7d"
decreasing_by
  · have := List.sizeOf_lt_of_mem x.2
    simp at this ⊢
    omega
  · rcases kv with ⟨⟨k, v⟩, hmem⟩
    have h1 := List.sizeOf_lt_of_mem hmem
    simp at h1 ⊢
    omega

/-- Python `str()` (f-string rendering) of a parsed JSON value. -/
def pyStr : Json → String
  | .null => "None"
  | .bool true => "True"
  | .bool false => "False"
  | .num n => toString n
  | .str s => s
  | j => pyRepr j

/-- Python `str.startswith` as character-list prefix matching (used instead
of `String.startsWith`, whose byte-position implementation does not reduce
in the kernel; the semantics — case-sensitive literal prefix — coincide). -/
def pyStartswith : List Char → List Char → Bool
  | _, [] => true
  | [], _ :: _ => false
  | c :: cs, p :: ps => c == p && pyStartswith cs ps

/-- One segment-splitting step of `pySplitHash`, over character lists.
The result list is always non-empty. -/
def splitOnCharAux (sep : Char) : List Char → List (List Char)
  | [] => [[]]
  | c :: cs =>
    match splitOnCharAux sep cs with
    | r :: rs => if c = sep then [] :: r :: rs else (c :: r) :: rs
    | [] => [[c]]

/-- Python `s.split('#')`: split on every occurrence of `'#'`, keeping empty
segments (`"a##b" ↦ ["a", "", "b"]`, `"" ↦ [""]`). -/
def pySplitHash (s : String) : List String :=
  (splitOnCharAux '#' s.toList).map (fun cs => String.mk cs)

/-- A stack frame of the documented thread-dump shape (spec data model). -/
structure StackFrame where
  className : String
  methodName : String
deriving DecidableEq

/-- One thread entry of the documented thread-dump shape: `stackTrace` is
ordered outermost-to-innermost, as received. -/
structure Thread where
  threadState : String
  stackTrace : List StackFrame
deriving DecidableEq

/-- The documented thread-dump shape `{"threads": [...]}`. -/
structure ThreadDump where
  threads : List Thread
deriving DecidableEq

/-- `filter_stack_trace` (profiler.py lines 57-77) over typed stack frames.
`method_filter` is `None` or a `'ClassName#MethodName'` string.  A non-empty
string is split on `'#'`; unpacking the parts into exactly two names raises
`ValueError` otherwise.  The first frame equal to the pair starts the
returned suffix; no match yields the empty list. -/
def filter_stack_trace (stack_trace : List StackFrame) (method_filter : Option String) :
    Except PyErr (List StackFrame) :=
  match method_filter with
  | none => .ok stack_trace
  | some mf =>
    if mf = "" then .ok stack_trace
    else
      match pySplitHash mf with
      | [class_name_filter, method_name_filter] =>
        match stack_trace.findIdx?
            (fun f => f.className == class_name_filter && f.methodName == method_name_filter) with
        | some start_depth => .ok (stack_trace.drop start_depth)
        | none => .ok []
      | _ => .error .valueError

/-- Frame loop of `extract_methods_with_depth` (lines 95-98) over typed
frames: enumerate the filtered stack, keep frames whose `className` starts
with `package_filter`, rendering `"className.methodName"`. -/
def extractFramesT (package_filter : String) (thread_state : String) :
    Nat → List StackFrame → List (String × Nat × String)
  | _, [] => []
  | depth, f :: rest =>
    if pyStartswith f.className.toList package_filter.toList then
      (f.className ++ "." ++ f.methodName, depth, thread_state) ::
        extractFramesT package_filter thread_state (depth + 1) rest
    else
      extractFramesT package_filter thread_state (depth + 1) rest

/-- Thread loop of `extract_methods_with_depth` (lines 90-98) over typed
threads: threads whose state is not exactly `RUNNABLE` are skipped; for
the others the raw stack is reversed, filtered, and its frames extracted. -/
def extractThreadsT (package_filter : String) (method_filter : Option String) :
    List Thread → Except PyErr (List (String × Nat × String))
  | [] => .ok []
  | thread :: rest =>
    if thread.threadState == "RUNNABLE" then
      match filter_stack_trace thread.stackTrace.reverse method_filter with
      | .error e => .error e
      | .ok filtered =>
        match extractThreadsT package_filter method_filter rest with
        | .error e => .error e
        | .ok more => .ok (extractFramesT package_filter thread.threadState 0 filtered ++ more)
    else
      extractThreadsT package_filter method_filter rest

/-- `extract_methods_with_depth` (lines 80-99) over the documented
thread-dump shape: `(method, depth, state)` triples of prefix-matching
frames of RUNNABLE threads, depths counted in the filtered reversed stack. -/
def extract_methods_with_depth (thread_dump : ThreadDump) (package_filter : String)
    (method_filter : Option String) : Except PyErr (List (String × Nat × String)) :=
  extractThreadsT package_filter method_filter thread_dump.threads

/-- Reference Stack Filter, modelled from the spec's words (§4.1): the
marker is a pre-split `(className, methodName)` pair; absent marker is
identity, a marker first matched at index `i` yields `stack[i:]`, an
unmatched marker yields the empty sequence. -/
def filter_stack_trace_spec (stack : List StackFrame) (marker : Option (String × String)) :
    List StackFrame :=
  match marker with
  | none => stack
  | some (c, m) =>
    match stack.findIdx? (fun f => f.className == c && f.methodName == m) with
    | some i => stack.drop i
    | none => []

/-- Marker search of `filter_stack_trace` (lines 69-73) over raw JSON
frames: Python's `and` short-circuits, so `frame['methodName']` is only
subscripted when the class name already matched. -/
def findMarkerJson (c m : String) : List Json → Except PyErr (Option Nat)
  | [] => .ok none
  | frame :: rest =>
    match jsonSubscript frame "className" with
    | .error e => .error e
    | .ok cn =>
      if pyEqStr cn c then
        match jsonSubscript frame "methodName" with
        | .error e => .error e
        | .ok mn =>
          if pyEqStr mn m then
            .ok (some 0)
          else
            match findMarkerJson c m rest with
            | .error e => .error e
            | .ok o => .ok (o.map (· + 1))
      else
        match findMarkerJson c m rest with
        | .error e => .error e
        | .ok o => .ok (o.map (· + 1))

/-- `filter_stack_trace` (lines 57-77) over raw JSON frames. -/
def filter_stack_trace_json (stack_trace : List Json) (method_filter : Option String) :
    Except PyErr (List Json) :=
  match method_filter with
  | none => .ok stack_trace
  | some mf =>
    if mf = "" then .ok stack_trace
    else
      match pySplitHash mf with
      | [class_name_filter, method_name_filter] =>
        match findMarkerJson class_name_filter method_name_filter stack_trace with
        | .error e => .error e
        | .ok (some i) => .ok (stack_trace.drop i)
        | .ok none => .ok []
      | _ => .error .valueError

/-- Frame loop of `extract_methods_with_depth` (lines 95-98) over raw JSON
frames: a non-string `className` has no `.startswith` (`AttributeError`);
`methodName` is rendered through `str()` by the f-string. -/
def extractFramesJson (package_filter : String) (thread_state : Json) :
    Nat → List Json → Except PyErr (List (String × Nat × Json))
  | _, [] => .ok []
  | depth, frame :: rest =>
    match jsonSubscript frame "className" with
    | .error e => .error e
    | .ok (.str s) =>
      if pyStartswith s.toList package_filter.toList then
        match jsonSubscript frame "methodName" with
        | .error e => .error e
        | .ok mn =>
          match extractFramesJson package_filter thread_state (depth + 1) rest with
          | .error e => .error e
          | .ok more => .ok ((s ++ "." ++ pyStr mn, depth, thread_state) :: more)
      else
        extractFramesJson package_filter thread_state (depth + 1) rest
    | .ok _ => .error .attributeError

/-- Thread loop of `extract_methods_with_depth` (lines 90-98) over raw JSON
thread entries. -/
def extractThreadsJson (package_filter : String) (method_filter : Option String) :
    List Json → Except PyErr (List (String × Nat × Json))
  | [] => .ok []
  | thread :: rest =>
    match jsonSubscript thread "threadState" with
    | .error e => .error e
    | .ok thread_state =>
      if pyEqStr thread_state "RUNNABLE" then
        match jsonSubscript thread "stackTrace" with
        | .error e => .error e
        | .ok rawStack =>
          match pyReversedList rawStack with
          | .error e => .error e
          | .ok stack_trace_reversed =>
            match filter_stack_trace_json stack_trace_reversed method_filter with
            | .error e => .error e
            | .ok filtered =>
              match extractFramesJson package_filter thread_state 0 filtered with
              | .error e => .error e
              | .ok obs =>
                match extractThreadsJson package_filter method_filter rest with
                | .error e => .error e
                | .ok more => .ok (obs ++ more)
      else
        extractThreadsJson package_filter method_filter rest

/-- `extract_methods_with_depth` (lines 80-99) over a raw parsed JSON body:
`thread_dump['threads']` is subscripted first, then iterated. -/
def extract_methods_with_depth_json (thread_dump : Json) (package_filter : String)
    (method_filter : Option String) : Except PyErr (List (String × Nat × Json)) :=
  match jsonSubscript thread_dump "threads" with
  | .error e => .error e
  | .ok threadsVal =>
    match pyIter threadsVal with
    | .error e => .error e
    | .ok threads => extractThreadsJson package_filter method_filter threads

/-- `report_estimated_time_remaining` (lines 102-112): the estimated
duration it logs, with Python floats as `ℚ`. -/
def report_estimated_time_remaining (samples : Nat) (min_interval max_interval : ℚ) : ℚ :=
  let avg_sampling_interval := (max_interval - min_interval) / 2 + min_interval
  (samples : ℚ) * avg_sampling_interval

/-- The Scenario A/B thread dump: one RUNNABLE thread whose stack, outermost
to innermost, is `[A.foo, B.bar, A.baz]`. -/
def scenarioDump : ThreadDump :=
  ⟨[⟨"RUNNABLE", [⟨"A", "foo"⟩, ⟨"B", "bar"⟩, ⟨"A", "baz"⟩]⟩]⟩

/-- A well-formed raw body with one RUNNABLE thread whose only frame is
`X.y`, used as a concrete sampling input. -/
def runnableDumpJson : Json :=
  .obj [("threads", .arr [.obj [("threadState", .str "RUNNABLE"),
    ("stackTrace", .arr [.obj [("className", .str "X"), ("methodName", .str "y")]])]])]

/-- The three aggregation structures of `sample_thread_dumps` (lines
129-131), each as an insertion-ordered association list:
`method_counts : Counter`, `depth_sums : defaultdict(int)`,
`depth_counts : Counter`. -/
structure Agg where
  method_counts : List (String × Nat)
  depth_sums : List (String × Nat)
  depth_counts : List (String × Nat)
deriving DecidableEq

/-- The empty aggregation state at the start of the loop. -/
def initAgg : Agg := ⟨[], [], []⟩

/-- Add `d` to key `k` of a counter/defaultdict: bump the existing entry,
or append `(k, d)` at the end (Python dicts keep insertion order). -/
def bumpAssoc : List (String × Nat) → String → Nat → List (String × Nat)
  | [], k, d => [(k, d)]
  | (k', v) :: rest, k, d =>
    if k' = k then (k', v + d) :: rest else (k', v) :: bumpAssoc rest k d

/-- Read a counter / `defaultdict(int)` entry: missing keys read as 0. -/
def counterGet (l : List (String × Nat)) (k : String) : Nat :=
  match l.lookup k with
  | some v => v
  | none => 0

/-- Invariant of the aggregation state maintained by the sampling loop:
every counted method has `count ≥ 1`, the `method_counts` keys are
distinct, and every method's `depth_counts` entry equals its
`method_counts` entry. -/
def AggInv (agg : Agg) : Prop :=
  (∀ p ∈ agg.method_counts, 1 ≤ p.2) ∧
  (agg.method_counts.map Prod.fst).Nodup ∧
  (∀ m, counterGet agg.method_counts m = counterGet agg.depth_counts m)

/-- Fold one `(method, depth, state)` observation into the aggregates
(lines 139-142): `method_counts.update([method])`,
`depth_sums[method] += depth`, `depth_counts.update([method])`. -/
def foldObservation (agg : Agg) (o : String × Nat × Json) : Agg :=
  { method_counts := bumpAssoc agg.method_counts o.1 1
    depth_sums := bumpAssoc agg.depth_sums o.1 o.2.1
    depth_counts := bumpAssoc agg.depth_counts o.1 1 }

/-- Fold a whole sample's observations into the aggregates (lines 139-142). -/
def updateAgg (agg : Agg) (obs : List (String × Nat × Json)) : Agg :=
  obs.foldl foldObservation agg

/-- Sampling loop of `sample_thread_dumps` (lines 132-144) over the
per-iteration outcomes of `get_thread_dump` (`none` = it caught a
transport/JSON-decode error and returned `None`).  A falsy body is
skipped by `if thread_dump:`; a truthy body is passed to the extractor,
whose exceptions propagate and abort the loop. -/
def sampleLoop (package_filter : String) (method_filter : Option String) :
    List (Option Json) → Agg → Except PyErr Agg
  | [], agg => .ok agg
  | fetched :: rest, agg =>
    match fetched with
    | none => sampleLoop package_filter method_filter rest agg
    | some thread_dump =>
      if truthy thread_dump then
        match extract_methods_with_depth_json thread_dump package_filter method_filter with
        | .error e => .error e
        | .ok obs => sampleLoop package_filter method_filter rest (updateAgg agg obs)
      else
        sampleLoop package_filter method_filter rest agg

/-- Row-building loop of `sample_thread_dumps` (lines 146-149): iterate
`method_counts.items()` in insertion order; `depth_sums[method]` and
`depth_counts[method]` read missing keys as 0, and dividing by a zero
`depth_counts` entry raises `ZeroDivisionError`. -/
def combineRows (depth_sums depth_counts : List (String × Nat)) :
    List (String × Nat) → Except PyErr (List (String × Nat × ℚ))
  | [] => .ok []
  | (method, count) :: rest =>
    if counterGet depth_counts method = 0 then .error .zeroDivisionError
    else
      match combineRows depth_sums depth_counts rest with
      | .error e => .error e
      | .ok more =>
        .ok ((method, count,
          (counterGet depth_sums method : ℚ) / (counterGet depth_counts method : ℚ)) :: more)

/-- The `combined_data` rows of one aggregation state (lines 146-149). -/
def combined_data (agg : Agg) : Except PyErr (List (String × Nat × ℚ)) :=
  combineRows agg.depth_sums agg.depth_counts agg.method_counts

/-- The ascending-by-average-depth comparison of the final
`combined_data.sort(key=lambda x: x[2], reverse=False)` (line 151). -/
def avgDepthLe (a b : String × Nat × ℚ) : Bool :=
  decide (a.2.2 ≤ b.2.2)

/-- `sample_thread_dumps` (lines 115-153) over the per-iteration fetch
outcomes: run the sampling loop from empty aggregates, build the
`(method, count, averageDepth)` rows, and stable-sort them ascending by
average depth.  The URL, the randomized waits and the logging calls
(including `report_estimated_time_remaining`) do not influence the
returned data and are abstracted away. -/
def sample_thread_dumps (fetches : List (Option Json)) (package_filter : String)
    (method_filter : Option String) : Except PyErr (List (String × Nat × ℚ)) :=
  match sampleLoop package_filter method_filter fetches initAgg with
  | .error e => .error e
  | .ok agg =>
    match combined_data agg with
    | .error e => .error e
    | .ok combined => .ok (combined.mergeSort avgDepthLe)

/-! ## Helper lemmas -/

theorem pySplitHash_empty : pySplitHash "" = [""] := rfl

theorem extractFramesT_state (package_filter thread_state : String) :
    ∀ (depth : Nat) (l : List StackFrame) (r : String × Nat × String),
      r ∈ extractFramesT package_filter thread_state depth l → r.2.2 = thread_state := by
  intro depth l
  induction l generalizing depth with
  | nil => intro r hr; cases hr
  | cons f rest ih =>
    intro r hr
    by_cases hc : pyStartswith f.className.toList package_filter.toList
    · rw [extractFramesT, if_pos hc] at hr
      rcases List.mem_cons.mp hr with h | h
      · rw [h]
      · exact ih _ _ h
    · rw [extractFramesT, if_neg hc] at hr
      exact ih _ _ hr

theorem extractThreadsT_state (package_filter : String) (method_filter : Option String) :
    ∀ (threads : List Thread) (out : List (String × Nat × String)),
      extractThreadsT package_filter method_filter threads = .ok out →
      ∀ r ∈ out, r.2.2 = "RUNNABLE" := by
  intro threads
  induction threads with
  | nil =>
    intro out h r hr
    rw [extractThreadsT] at h
    simp only [Except.ok.injEq] at h
    subst h
    cases hr
  | cons t rest ih =>
    intro out h r hr
    by_cases hs : t.threadState == "RUNNABLE"
    · rw [extractThreadsT, if_pos hs] at h
      rcases hf : filter_stack_trace t.stackTrace.reverse method_filter with e | filtered
      · rw [hf] at h; exact Except.noConfusion h
      · rw [hf] at h
        rcases hrest : extractThreadsT package_filter method_filter rest with e | more
        · rw [hrest] at h; exact Except.noConfusion h
        · rw [hrest] at h
          simp only [Except.ok.injEq] at h
          subst h
          rcases List.mem_append.mp hr with hmem | hmem
          · have hst := extractFramesT_state package_filter t.threadState 0 filtered r hmem
            have hrun : t.threadState = "RUNNABLE" := by simpa using hs
            rw [hst, hrun]
          · exact ih more hrest r hmem
    · rw [extractThreadsT, if_neg hs] at h
      exact ih out h r hr

theorem counterGet_nil (k : String) : counterGet [] k = 0 := rfl

theorem counterGet_cons (k1 : String) (v : Nat) (rest : List (String × Nat)) (k : String) :
    counterGet ((k1, v) :: rest) k = if k = k1 then v else counterGet rest k := by
  by_cases h : k = k1
  · subst h
    simp [counterGet, List.lookup]
  · have hb : (k == k1) = false := beq_eq_false_iff_ne.mpr h
    simp [counterGet, List.lookup, hb, h]

theorem counterGet_bumpAssoc (l : List (String × Nat)) (k : String) (d : Nat) (k' : String) :
    counterGet (bumpAssoc l k d) k' = counterGet l k' + if k' = k then d else 0 := by
  induction l with
  | nil =>
    rw [bumpAssoc, counterGet_cons, counterGet_nil]
    by_cases h : k' = k <;> simp [h]
  | cons p rest ih =>
    obtain ⟨k1, v⟩ := p
    rw [bumpAssoc]
    by_cases h1 : k1 = k
    · rw [if_pos h1, counterGet_cons, counterGet_cons]
      by_cases h2 : k' = k1
      · rw [if_pos h2, if_pos h2, if_pos (h2.trans h1)]
      · rw [if_neg h2, if_neg h2, if_neg (fun hh => h2 (hh.trans h1.symm))]
        simp
    · rw [if_neg h1, counterGet_cons, counterGet_cons]
      by_cases h2 : k' = k1
      · rw [if_pos h2, if_pos h2, if_neg (fun hh => h1 (h2.symm.trans hh))]
        simp
      · rw [if_neg h2, if_neg h2, ih]

theorem mem_keys_bumpAssoc (l : List (String × Nat)) (k : String) (d : Nat) (a : String) :
    a ∈ (bumpAssoc l k d).map Prod.fst ↔ a ∈ l.map Prod.fst ∨ a = k := by
  induction l with
  | nil => simp [bumpAssoc]
  | cons p rest ih =>
    obtain ⟨k1, v⟩ := p
    rw [bumpAssoc]
    by_cases h1 : k1 = k
    · rw [if_pos h1]
      subst h1
      simp
      tauto
    · rw [if_neg h1]
      simp [ih]
      tauto

theorem keys_nodup_bumpAssoc (l : List (String × Nat)) (k : String) (d : Nat)
    (h : (l.map Prod.fst).Nodup) : ((bumpAssoc l k d).map Prod.fst).Nodup := by
  induction l with
  | nil => simp [bumpAssoc]
  | cons p rest ih =>
    obtain ⟨k1, v⟩ := p
    rw [List.map_cons] at h
    obtain ⟨ha, hb⟩ := List.nodup_cons.mp h
    rw [bumpAssoc]
    by_cases h1 : k1 = k
    · rw [if_pos h1, List.map_cons]
      exact List.nodup_cons.mpr ⟨ha, hb⟩
    · rw [if_neg h1, List.map_cons]
      refine List.nodup_cons.mpr ⟨?_, ih hb⟩
      intro hmem
      rcases (mem_keys_bumpAssoc rest k d k1).mp hmem with hm | hm
      · exact ha hm
      · exact h1 hm

theorem counterGet_of_mem_nodup (l : List (String × Nat)) (p : String × Nat)
    (hnd : (l.map Prod.fst).Nodup) (hp : p ∈ l) : counterGet l p.1 = p.2 := by
  induction l with
  | nil => cases hp
  | cons q rest ih =>
    obtain ⟨k, v⟩ := q
    rw [List.map_cons] at hnd
    obtain ⟨hk, hnd2⟩ := List.nodup_cons.mp hnd
    rcases List.mem_cons.mp hp with heq | hmem
    · subst heq
      rw [counterGet_cons, if_pos rfl]
    · rw [counterGet_cons]
      have hne : p.1 ≠ k := by
        intro he
        apply hk
        rw [← he]
        exact List.mem_map.mpr ⟨p, hmem, rfl⟩
      rw [if_neg hne]
      exact ih hnd2 hmem

theorem bumpAssoc_values_pos (l : List (String × Nat)) (k : String) (d : Nat)
    (hl : ∀ p ∈ l, 1 ≤ p.2) (hd : 1 ≤ d) : ∀ p ∈ bumpAssoc l k d, 1 ≤ p.2 := by
  induction l with
  | nil =>
    intro p hp
    rw [bumpAssoc] at hp
    have he := List.mem_singleton.mp hp
    subst he
    exact hd
  | cons q rest ih =>
    obtain ⟨k1, v⟩ := q
    intro p hp
    rw [bumpAssoc] at hp
    by_cases h1 : k1 = k
    · rw [if_pos h1] at hp
      rcases List.mem_cons.mp hp with heq | hmem
      · subst heq
        exact le_trans (hl (k1, v) (List.mem_cons_self _ _)) (Nat.le_add_right v d)
      · exact hl p (List.mem_cons_of_mem _ hmem)
    · rw [if_neg h1] at hp
      rcases List.mem_cons.mp hp with heq | hmem
      · subst heq
        exact hl (k1, v) (List.mem_cons_self _ _)
      · exact ih (fun q hq => hl q (List.mem_cons_of_mem _ hq)) p hmem

theorem aggInv_init : AggInv initAgg :=
  ⟨by simp [initAgg], by simp [initAgg], fun m => rfl⟩

theorem aggInv_fold (agg : Agg) (o : String × Nat × Json) (h : AggInv agg) :
    AggInv (foldObservation agg o) := by
  obtain ⟨h1, h2, h3⟩ := h
  refine ⟨?_, ?_, ?_⟩
  · exact bumpAssoc_values_pos _ _ _ h1 (le_refl 1)
  · exact keys_nodup_bumpAssoc _ _ _ h2
  · intro m
    show counterGet (bumpAssoc agg.method_counts o.1 1) m =
      counterGet (bumpAssoc agg.depth_counts o.1 1) m
    rw [counterGet_bumpAssoc, counterGet_bumpAssoc, h3]

theorem aggInv_update : ∀ (obs : List (String × Nat × Json)) (agg : Agg),
    AggInv agg → AggInv (updateAgg agg obs) := by
  intro obs
  induction obs with
  | nil => intro agg h; exact h
  | cons o rest ih => intro agg h; exact ih _ (aggInv_fold agg o h)

theorem aggInv_sampleLoop (package_filter : String) (method_filter : Option String) :
    ∀ (fetches : List (Option Json)) (agg agg2 : Agg), AggInv agg →
      sampleLoop package_filter method_filter fetches agg = .ok agg2 → AggInv agg2 := by
  intro fetches
  induction fetches with
  | nil =>
    intro agg agg2 h heq
    rw [sampleLoop] at heq
    simp only [Except.ok.injEq] at heq
    exact heq ▸ h
  | cons a rest ih =>
    intro agg agg2 h heq
    cases a with
    | none =>
      rw [sampleLoop] at heq
      exact ih agg agg2 h heq
    | some j =>
      rw [sampleLoop] at heq
      by_cases ht : truthy j
      · rw [if_pos ht] at heq
        cases hx : extract_methods_with_depth_json j package_filter method_filter with
        | error e => rw [hx] at heq; exact Except.noConfusion heq
        | ok obs =>
          rw [hx] at heq
          exact ih _ agg2 (aggInv_update obs agg h) heq
      · rw [if_neg ht] at heq
        exact ih agg agg2 h heq

theorem combineRows_mem (ds dc : List (String × Nat)) :
    ∀ (items : List (String × Nat)) (out : List (String × Nat × ℚ)),
      combineRows ds dc items = .ok out →
      ∀ r ∈ out, (r.1, r.2.1) ∈ items ∧
        r.2.2 = (counterGet ds r.1 : ℚ) / (counterGet dc r.1 : ℚ) := by
  intro items
  induction items with
  | nil =>
    intro out h r hr
    rw [combineRows] at h
    simp only [Except.ok.injEq] at h
    subst h
    cases hr
  | cons p rest ih =>
    obtain ⟨method, count⟩ := p
    intro out h r hr
    rw [combineRows] at h
    by_cases hz : counterGet dc method = 0
    · rw [if_pos hz] at h
      exact Except.noConfusion h
    · rw [if_neg hz] at h
      cases hrest : combineRows ds dc rest with
      | error e => rw [hrest] at h; exact Except.noConfusion h
      | ok more =>
        rw [hrest] at h
        simp only [Except.ok.injEq] at h
        subst h
        rcases List.mem_cons.mp hr with heq | hmem
        · subst heq
          exact ⟨List.mem_cons_self _ _, rfl⟩
        · obtain ⟨hm, hv⟩ := ih more hrest r hmem
          exact ⟨List.mem_cons_of_mem _ hm, hv⟩

theorem sampleLoop_append (package_filter : String) (method_filter : Option String) :
    ∀ (l1 l2 : List (Option Json)) (agg : Agg),
      sampleLoop package_filter method_filter (l1 ++ l2) agg =
        match sampleLoop package_filter method_filter l1 agg with
        | .error e => .error e
        | .ok agg2 => sampleLoop package_filter method_filter l2 agg2 := by
  intro l1
  induction l1 with
  | nil => intro l2 agg; rfl
  | cons a rest ih =>
    intro l2 agg
    cases a with
    | none =>
      simp only [List.cons_append, sampleLoop]
      exact ih l2 agg
    | some j =>
      simp only [List.cons_append, sampleLoop]
      by_cases ht : truthy j
      · rw [if_pos ht, if_pos ht]
        cases hx : extract_methods_with_depth_json j package_filter method_filter with
        | error e => rfl
        | ok obs => exact ih l2 _
      · rw [if_neg ht, if_neg ht]
        exact ih l2 agg

theorem sample_thread_dumps_congr (fetches1 fetches2 : List (Option Json))
    (package_filter : String) (method_filter : Option String)
    (h : sampleLoop package_filter method_filter fetches1 initAgg =
      sampleLoop package_filter method_filter fetches2 initAgg) :
    sample_thread_dumps fetches1 package_filter method_filter =
      sample_thread_dumps fetches2 package_filter method_filter := by
  rw [sample_thread_dumps, sample_thread_dumps, h]

/-! ## Claims -/

/-- Claim C1, counterexample: for the Scenario B input (one RUNNABLE
thread with stack `[A.foo, B.bar, A.baz]` outermost-to-innermost, package
prefix `"A"`, marker `B#bar`) the Method Extractor does NOT return an
empty result: it returns the tuple `("A.foo", 1, "RUNNABLE")`, because
`A.foo` sits at depth 1 of the marker-truncated reversed stack and
matches the prefix. -/
theorem C1_counterexample :
    extract_methods_with_depth scenarioDump "A" (some "B#bar") =
      .ok [("A.foo", 1, "RUNNABLE")] ∧
    ([("A.foo", 1, "RUNNABLE")] : List (String × Nat × String)) ≠ [] :=
  ⟨rfl, by simp⟩

/-- Claim C1, amended: for a thread dump with one RUNNABLE thread whose
stack, outermost to innermost, is `[A.foo, B.bar, A.baz]`, with package
prefix `"A"` and marker `(B, bar)`, the Method Extractor returns exactly
`[("A.foo", 1, "RUNNABLE")]`: the marker frame `B.bar` (depth 0) fails
the prefix, but `A.foo` (depth 1) matches it and is included. -/
theorem C1_amended_scenarioB :
    extract_methods_with_depth scenarioDump "A" (some "B#bar") =
      .ok [("A.foo", 1, "RUNNABLE")] := rfl

/-- Claim C3, counterexample: with a non-empty method-filter string
lacking `'#'`, the per-stack filter operation itself raises `ValueError`,
and in a sampling run over a well-formed dump the same error surfaces
mid-run (after sampling began) rather than as construction-time
validation. -/
theorem C3_counterexample :
    filter_stack_trace [⟨"A", "foo"⟩] (some "Bbar") = .error .valueError ∧
    sample_thread_dumps [some runnableDumpJson] "" (some "Bbar") = .error .valueError :=
  ⟨rfl, rfl⟩

/-- Claim C3, amended: if the method-filter string is non-empty but does
not split on `'#'` into exactly two parts, there is no construction-time
validation; instead every application of the per-stack filter raises
`ValueError` (from unpacking the split) mid-run. -/
theorem C3_amended (stack : List StackFrame) (mf : String)
    (h0 : mf ≠ "") (h2 : (pySplitHash mf).length ≠ 2) :
    filter_stack_trace stack (some mf) = .error .valueError := by
  rw [filter_stack_trace, if_neg h0]
  cases hs : pySplitHash mf with
  | nil => rfl
  | cons a tl =>
    cases tl with
    | nil => rfl
    | cons b tl2 =>
      cases tl2 with
      | nil => exact absurd (by simp [hs] : (pySplitHash mf).length = 2) h2
      | cons c tl3 => rfl

/-- Witness for C3 amended, at the marker string `"Bbar"`. -/
theorem C3_amended_witness :
    filter_stack_trace [] (some "Bbar") = .error .valueError :=
  C3_amended [] "Bbar" (by decide) (by decide)

/-- Claim C4: the Stack Filter agrees with the reference definition over
pre-split markers: an absent (`None`) or empty (`''`) marker is the
identity, and a marker string splitting into the pair `(c, m)` yields the
reference truncate-at-first-match behaviour. -/
theorem C4_filter_matches_spec (stack : List StackFrame) :
    filter_stack_trace stack none = .ok (filter_stack_trace_spec stack none) ∧
    filter_stack_trace stack (some "") = .ok (filter_stack_trace_spec stack none) ∧
    ∀ (s c m : String), pySplitHash s = [c, m] →
      filter_stack_trace stack (some s) = .ok (filter_stack_trace_spec stack (some (c, m))) := by
  refine ⟨rfl, rfl, ?_⟩
  intro s c m hs
  have h0 : s ≠ "" := by
    intro he
    subst he
    rw [pySplitHash_empty] at hs
    simp at hs
  rw [filter_stack_trace, if_neg h0, hs, filter_stack_trace_spec]
  cases hf : stack.findIdx? (fun f => f.className == c && f.methodName == m) <;> simp [hf]

/-- Witness for C4, at the Scenario B reversed stack and marker `B#bar`. -/
theorem C4_witness :
    filter_stack_trace [⟨"A", "baz"⟩, ⟨"B", "bar"⟩, ⟨"A", "foo"⟩] (some "B#bar") =
      .ok (filter_stack_trace_spec [⟨"A", "baz"⟩, ⟨"B", "bar"⟩, ⟨"A", "foo"⟩]
        (some ("B", "bar"))) :=
  (C4_filter_matches_spec [⟨"A", "baz"⟩, ⟨"B", "bar"⟩, ⟨"A", "foo"⟩]).2.2 "B#bar" "B" "bar" rfl

/-- Claim C7: the Method Extractor's output never contains a tuple coming
from a thread whose state is not exactly `RUNNABLE`: every output tuple
carries its source thread's state, and it is always `"RUNNABLE"`. -/
theorem C7_extract_only_runnable (dump : ThreadDump) (package_filter : String)
    (method_filter : Option String) (out : List (String × Nat × String))
    (h : extract_methods_with_depth dump package_filter method_filter = .ok out) :
    ∀ r ∈ out, r.2.2 = "RUNNABLE" :=
  extractThreadsT_state package_filter method_filter dump.threads out h

/-- Witness for C7, at the Scenario B extraction. -/
theorem C7_witness :
    (("A.foo", 1, "RUNNABLE") : String × Nat × String).2.2 = "RUNNABLE" :=
  C7_extract_only_runnable scenarioDump "A" (some "B#bar") [("A.foo", 1, "RUNNABLE")]
    rfl ("A.foo", 1, "RUNNABLE") (by simp)

/-- Claim C8: the estimated total duration emitted before sampling equals
`sampleCount * (minInterval + maxInterval) / 2` exactly (Python floats
modelled as `ℚ`). -/
theorem C8_estimated_duration (samples : Nat) (min_interval max_interval : ℚ)
    (h1 : 0 < samples) (h2 : 0 ≤ min_interval) (h3 : min_interval ≤ max_interval) :
    report_estimated_time_remaining samples min_interval max_interval =
      (samples : ℚ) * (min_interval + max_interval) / 2 := by
  unfold report_estimated_time_remaining
  ring

/-- Witness for C8: with samples=10, minInterval=1, maxInterval=3 the
estimate is `10 * (1 + 3) / 2 = 20`. -/
theorem C8_witness :
    report_estimated_time_remaining 10 1 3 = ((10 : Nat) : ℚ) * ((1 : ℚ) + 3) / 2 ∧
    report_estimated_time_remaining 10 1 3 = 20 := by
  have h := C8_estimated_duration 10 1 3 (by norm_num) (by norm_num) (by norm_num)
  exact ⟨h, by rw [h]; norm_num⟩

/-- Claim C9: a run all of whose fetches fail completes normally with an
empty report: every failed iteration is skipped and the loop runs through
the whole budget, returning `[]` rather than raising. -/
theorem C9_all_failures (fetches : List (Option Json)) (package_filter : String)
    (method_filter : Option String) (h : ∀ f ∈ fetches, f = none) :
    sample_thread_dumps fetches package_filter method_filter = .ok [] := by
  have hloop : ∀ (l : List (Option Json)), (∀ f ∈ l, f = none) →
      ∀ agg, sampleLoop package_filter method_filter l agg = .ok agg := by
    intro l
    induction l with
    | nil => intro _ agg; rfl
    | cons a rest ih =>
      intro hall agg
      have ha : a = none := hall a (List.mem_cons_self a rest)
      subst ha
      rw [sampleLoop]
      exact ih (fun f hf => hall f (List.mem_cons_of_mem _ hf)) agg
  rw [sample_thread_dumps, hloop fetches h initAgg]
  simp [combined_data, initAgg, combineRows]

/-- Witness for C9: a 2-sample run where both fetches fail (even with a
malformed marker string configured) returns the empty report. -/
theorem C9_witness :
    sample_thread_dumps [none, none] "" (some "Bbar") = .ok [] :=
  C9_all_failures [none, none] "" (some "Bbar") (by simp)

/-- Claim C2, counterexample: a sample whose body parses as the JSON
object `{"foo": 1}` (truthy, no `"threads"` key) is NOT recovered like a
transport failure: the run aborts with `KeyError`, while the same run
with a transport failure returns the empty report. -/
theorem C2_counterexample :
    sample_thread_dumps [some (Json.obj [("foo", Json.num 1)])] "" none =
      .error .keyError ∧
    sample_thread_dumps [none] "" none = .ok [] :=
  ⟨rfl, by simp [sample_thread_dumps, sampleLoop, initAgg, combined_data, combineRows]⟩

/-- Claim C2, amended: a fetched body that parses as a truthy JSON object
lacking the `"threads"` key is not recovered: the extractor raises
`KeyError` and the session aborts without a report.  Only transport
failures / non-JSON bodies (where the fetch helper returns `None`) and
falsy parsed values are skipped. -/
theorem C2_amended (kvs : List (String × Json)) (package_filter : String)
    (method_filter : Option String) (hk : kvs.lookup "threads" = none) (hne : kvs ≠ []) :
    sample_thread_dumps [some (Json.obj kvs)] package_filter method_filter =
      .error .keyError := by
  have htr : truthy (Json.obj kvs) = true := by
    cases kvs with
    | nil => exact absurd rfl hne
    | cons p rest => rfl
  have hsub : jsonSubscript (Json.obj kvs) "threads" = .error .keyError := by
    rw [jsonSubscript, hk]
  have hext : extract_methods_with_depth_json (Json.obj kvs) package_filter method_filter =
      .error .keyError := by
    rw [extract_methods_with_depth_json, hsub]
  have hloop : sampleLoop package_filter method_filter [some (Json.obj kvs)] initAgg =
      .error .keyError := by
    rw [sampleLoop]
    simp [htr, hext]
  rw [sample_thread_dumps, hloop]

/-- Witness for C2 amended, at the body `{"foo": 1}`. -/
theorem C2_amended_witness :
    sample_thread_dumps [some (Json.obj [("foo", Json.num 1)])] "" none =
      .error .keyError :=
  C2_amended [("foo", Json.num 1)] "" none rfl (by simp)

/-- Claim C10: a sample whose fetch succeeds with a falsy parsed body is
treated exactly like a failed fetch: the loop state after that iteration
is the same as with a transport failure there (or with the sample absent
altogether), and so is the final report. -/
theorem C10_falsy_skipped (j : Json) (pre post : List (Option Json))
    (package_filter : String) (method_filter : Option String)
    (hj : truthy j = false) :
    (∀ agg, sampleLoop package_filter method_filter (pre ++ some j :: post) agg =
        sampleLoop package_filter method_filter (pre ++ none :: post) agg) ∧
    (∀ agg, sampleLoop package_filter method_filter (pre ++ some j :: post) agg =
        sampleLoop package_filter method_filter (pre ++ post) agg) ∧
    sample_thread_dumps (pre ++ some j :: post) package_filter method_filter =
      sample_thread_dumps (pre ++ none :: post) package_filter method_filter ∧
    sample_thread_dumps (pre ++ some j :: post) package_filter method_filter =
      sample_thread_dumps (pre ++ post) package_filter method_filter := by
  have hstep : ∀ agg, sampleLoop package_filter method_filter (some j :: post) agg =
      sampleLoop package_filter method_filter post agg := by
    intro agg
    rw [sampleLoop]
    simp [hj]
  have hnone : ∀ agg, sampleLoop package_filter method_filter (none :: post) agg =
      sampleLoop package_filter method_filter post agg := by
    intro agg
    rw [sampleLoop]
  have key : ∀ agg, sampleLoop package_filter method_filter (pre ++ some j :: post) agg =
      sampleLoop package_filter method_filter (pre ++ post) agg := by
    intro agg
    rw [sampleLoop_append, sampleLoop_append]
    cases hp : sampleLoop package_filter method_filter pre agg with
    | error e => rfl
    | ok agg2 => exact hstep agg2
  have key2 : ∀ agg, sampleLoop package_filter method_filter (pre ++ none :: post) agg =
      sampleLoop package_filter method_filter (pre ++ post) agg := by
    intro agg
    rw [sampleLoop_append, sampleLoop_append]
    cases hp : sampleLoop package_filter method_filter pre agg with
    | error e => rfl
    | ok agg2 => exact hnone agg2
  refine ⟨fun agg => (key agg).trans (key2 agg).symm, key, ?_, ?_⟩
  · exact sample_thread_dumps_congr _ _ _ _ ((key initAgg).trans (key2 initAgg).symm)
  · exact sample_thread_dumps_congr _ _ _ _ (key initAgg)

/-- Witness for C10, at the falsy body `{}` in a one-sample run. -/
theorem C10_witness :
    sample_thread_dumps [some (Json.obj [])] "" none =
      sample_thread_dumps [none] "" none ∧
    sample_thread_dumps [some (Json.obj [])] "" none =
      sample_thread_dumps ([] : List (Option Json)) "" none := by
  have h := C10_falsy_skipped (Json.obj []) [] [] "" none rfl
  exact ⟨h.2.2.1, h.2.2.2⟩

/-- Claim C5: for every completed sampling run, every returned record
`(method, count, averageDepth)` has `count ≥ 1`, its `depth_counts` entry
in the final aggregation state equals `count` (each observation adds
exactly one depth value), and `averageDepth = depthSum / count`; in
particular the divisor is nonzero. -/
theorem C5_aggregate_invariants (fetches : List (Option Json)) (package_filter : String)
    (method_filter : Option String) (agg : Agg) (out : List (String × Nat × ℚ))
    (hA : sampleLoop package_filter method_filter fetches initAgg = .ok agg)
    (hO : sample_thread_dumps fetches package_filter method_filter = .ok out)
    (r : String × Nat × ℚ) (hr : r ∈ out) :
    1 ≤ r.2.1 ∧ counterGet agg.depth_counts r.1 = r.2.1 ∧ ((r.2.1 : ℚ) ≠ 0) ∧
      r.2.2 = (counterGet agg.depth_sums r.1 : ℚ) / (r.2.1 : ℚ) := by
  have hinv : AggInv agg :=
    aggInv_sampleLoop package_filter method_filter fetches initAgg agg aggInv_init hA
  rw [sample_thread_dumps, hA] at hO
  have hO2 : (match combined_data agg with
      | Except.error e => (Except.error e : Except PyErr (List (String × Nat × ℚ)))
      | Except.ok combined => Except.ok (combined.mergeSort avgDepthLe)) =
      Except.ok out := hO
  cases hc : combined_data agg with
  | error e => rw [hc] at hO2; exact Except.noConfusion hO2
  | ok combined =>
    rw [hc] at hO2
    simp only [Except.ok.injEq] at hO2
    subst hO2
    have hr2 : r ∈ combined := List.mem_mergeSort.mp hr
    obtain ⟨hmem, hval⟩ :=
      combineRows_mem agg.depth_sums agg.depth_counts agg.method_counts combined hc r hr2
    obtain ⟨h1, h2, h3⟩ := hinv
    have hcnt : counterGet agg.method_counts r.1 = r.2.1 :=
      counterGet_of_mem_nodup agg.method_counts (r.1, r.2.1) h2 hmem
    have hge : 1 ≤ r.2.1 := h1 (r.1, r.2.1) hmem
    have hdc : counterGet agg.depth_counts r.1 = r.2.1 := (h3 r.1).symm.trans hcnt
    refine ⟨hge, hdc, ?_, ?_⟩
    · exact Nat.cast_ne_zero.mpr (by omega)
    · rw [hval, hdc]

/-- Witness for C5, at a one-sample run observing method `X.y` at depth 0:
its record has count 1, depth-count 1 and average depth `0 / 1`. -/
theorem C5_witness :
    1 ≤ (1 : Nat) ∧ counterGet [("X.y", 1)] "X.y" = 1 ∧ (((1 : ℕ) : ℚ) ≠ 0) ∧
      (((0 : ℕ) : ℚ) / ((1 : ℕ) : ℚ)) = (counterGet [("X.y", 0)] "X.y" : ℚ) / ((1 : ℕ) : ℚ) := by
  have h := C5_aggregate_invariants [some runnableDumpJson] "" none
    ⟨[("X.y", 1)], [("X.y", 0)], [("X.y", 1)]⟩
    [("X.y", 1, ((0 : ℕ) : ℚ) / ((1 : ℕ) : ℚ))]
    rfl
    (by
      have h1 : sampleLoop "" none [some runnableDumpJson] initAgg =
          .ok ⟨[("X.y", 1)], [("X.y", 0)], [("X.y", 1)]⟩ := rfl
      have h2 : combined_data ⟨[("X.y", 1)], [("X.y", 0)], [("X.y", 1)]⟩ =
          .ok [("X.y", 1, ((0 : ℕ) : ℚ) / ((1 : ℕ) : ℚ))] := rfl
      rw [sample_thread_dumps, h1]
      simp [h2])
    ("X.y", 1, ((0 : ℕ) : ℚ) / ((1 : ℕ) : ℚ)) (by simp)
  exact h

/-- Claim C6: every completed sampling run returns its records sorted
ascending by average depth: adjacent records are non-decreasing in the
third component. -/
theorem C6_sorted_by_avg_depth (fetches : List (Option Json)) (package_filter : String)
    (method_filter : Option String) (out : List (String × Nat × ℚ))
    (h : sample_thread_dumps fetches package_filter method_filter = .ok out) :
    out.Chain' (fun a b => a.2.2 ≤ b.2.2) := by
  rw [sample_thread_dumps] at h
  cases hA : sampleLoop package_filter method_filter fetches initAgg with
  | error e => rw [hA] at h; exact Except.noConfusion h
  | ok agg =>
    rw [hA] at h
    have h2 : (match combined_data agg with
        | Except.error e => (Except.error e : Except PyErr (List (String × Nat × ℚ)))
        | Except.ok combined => Except.ok (combined.mergeSort avgDepthLe)) =
        Except.ok out := h
    cases hc : combined_data agg with
    | error e => rw [hc] at h2; exact Except.noConfusion h2
    | ok combined =>
      rw [hc] at h2
      simp only [Except.ok.injEq] at h2
      subst h2
      have htrans : ∀ (a b c : String × Nat × ℚ),
          avgDepthLe a b = true → avgDepthLe b c = true → avgDepthLe a c = true := by
        intro a b c hab hbc
        simp only [avgDepthLe, decide_eq_true_eq] at hab hbc ⊢
        exact le_trans hab hbc
      have htotal : ∀ (a b : String × Nat × ℚ),
          (avgDepthLe a b || avgDepthLe b a) = true := by
        intro a b
        simp only [avgDepthLe, Bool.or_eq_true, decide_eq_true_eq]
        exact le_total _ _
      have hs := List.sorted_mergeSort htrans htotal combined
      have hp : (combined.mergeSort avgDepthLe).Pairwise (fun a b => a.2.2 ≤ b.2.2) := by
        refine hs.imp ?_
        intro a b hab
        simpa only [avgDepthLe, decide_eq_true_eq] using hab
      exact hp.chain'

/-- Witness for C6, at a one-sample run observing method `X.y`. -/
theorem C6_witness :
    List.Chain' (fun (a b : String × Nat × ℚ) => a.2.2 ≤ b.2.2)
      [("X.y", 1, ((0 : ℕ) : ℚ) / ((1 : ℕ) : ℚ))] :=
  C6_sorted_by_avg_depth [some runnableDumpJson] "" none
    [("X.y", 1, ((0 : ℕ) : ℚ) / ((1 : ℕ) : ℚ))]
    (by
      have h1 : sampleLoop "" none [some runnableDumpJson] initAgg =
          .ok ⟨[("X.y", 1)], [("X.y", 0)], [("X.y", 1)]⟩ := rfl
      have h2 : combined_data ⟨[("X.y", 1)], [("X.y", 0)], [("X.y", 1)]⟩ =
          .ok [("X.y", 1, ((0 : ℕ) : ℚ) / ((1 : ℕ) : ℚ))] := rfl
      rw [sample_thread_dumps, h1]
      simp [h2])

end Profiler
